import Mathlib

/-!
Verification development for the aoc-slack bot (`src/bot.py`).

The bot polls an Advent-of-Code private leaderboard, extracts a set of
"star" facts, diffs it against a persisted snapshot, announces new stars
to a Slack webhook and persists the new snapshot.  This file gives a
shallow embedding of the pure logic of `bot.py`:

* JSON scalar values that can appear in the `get_star_ts` field are
  `JVal`; the code stores them verbatim (no coercion).
* A star fact is the Python tuple
  `(str(member_id), int(day_str), info.get("get_star_ts"), int(part_str))`
  built in `extract_star_set` (line 41), embedded as `Fact`.
* Python snapshots are sets of such tuples; they are modelled as
  `Finset Fact`, with `List Fact` values standing for concrete
  enumerations of a set (Python set iteration order is arbitrary, and no
  property proved below depends on the enumeration chosen).
* Fallible Python operations (`int(...)`, comparisons between
  incompatible values inside `sorted(...)`, `datetime.fromtimestamp` on a
  non-number, `max()` of an empty sequence) are embedded in
  `Except String`.
* External effects (HTTP fetch, the wall clock, timezone rendering, the
  scheduler) are inputs: the fetched leaderboard is a `RawLeaderboard`
  argument, and the Slack delivery outcome of each message is supplied by
  a `String → DeliveryOutcome` argument.
-/

namespace AocBot

/-- JSON scalar value as it may appear for the `get_star_ts` key of a part
entry.  `extract_star_set` stores this value verbatim in the star tuple
(no `int(...)` around `info.get("get_star_ts")` at line 41). -/
inductive JVal where
  | num (n : Int)
  | str (s : String)
deriving DecidableEq

/-- One star fact: the tuple
`(str(member_id), int(day_str), info.get("get_star_ts"), int(part_str))`
from `extract_star_set` (bot.py line 41).  The timestamp component is an
`Option JVal` because `info.get` yields `None` when the key is absent and
the raw JSON value otherwise. -/
structure Fact where
  memberId : String
  day : Int
  ts : Option JVal
  part : Int
deriving DecidableEq

/-- The `info` dict of one part entry of `completion_day_level`; only the
`get_star_ts` key is ever read (via `info.get`, so absence is `none`). -/
structure RawPartInfo where
  get_star_ts : Option JVal
deriving DecidableEq

/-- One member object of the leaderboard payload.  Fields read by the
code: `completion_day_level` (absent treated as empty via `.get(...)`),
`name` (via `.get`), `id` (indexed directly as `member["id"]`, always
present in the payload), `stars` and `local_score` (via `.get(..., 0)`).
JSON object keys are strings, so the nested day and part keys are
`String`. -/
structure RawMember where
  id : Int
  name : Option String
  stars : Option Int
  local_score : Option Int
  completion_day_level : Option (List (String × List (String × RawPartInfo)))
deriving DecidableEq

/-- The fetched leaderboard payload; `members` is read via
`.get("members", {})`, so an absent mapping is `none`. -/
structure RawLeaderboard where
  members : Option (List (String × RawMember))
deriving DecidableEq

/-- Value of a decimal digit character, `none` for a non-digit. -/
def digitVal (c : Char) : Option Nat :=
  if c.isDigit then some (c.toNat - 48) else none

/-- Fold a digit string into a number, `none` on the first non-digit. -/
def natOfDigits (cs : List Char) (acc : Nat) : Option Nat :=
  match cs with
  | [] => some acc
  | c :: rest =>
    match digitVal c with
    | none => none
    | some d => natOfDigits rest (acc * 10 + d)

/-- Python `int(s)` on a string: the parsed integer, or `none` when the
string is not a decimal integer literal (the code then raises
`ValueError`).  An optional leading minus sign is accepted; the further
laxness of CPython (surrounding whitespace, a leading plus, underscores)
is irrelevant to every payload considered here. -/
def pyIntString (s : String) : Option Int :=
  match s.toList with
  | [] => none
  | '-' :: rest =>
    match rest with
    | [] => none
    | _ => (natOfDigits rest 0).map (fun n => -(n : Int))
  | cs => (natOfDigits cs 0).map (fun n => (n : Int))

/-- Innermost loop body of `extract_star_set` (bot.py lines 40-41): for one
`(part_str, info)` entry, evaluate `int(day_str)`, then `int(part_str)`
(left-to-right evaluation order of the tuple display), and append the
fact.  `str(member_id)` is the identity because JSON object keys are
already strings. -/
def part_step (mid dayStr : String) (acc : List Fact) (pe : String × RawPartInfo) :
    Except String (List Fact) :=
  match pyIntString dayStr with
  | none => .error "ValueError: invalid literal for int"
  | some d =>
    match pyIntString pe.1 with
    | none => .error "ValueError: invalid literal for int"
    | some p => .ok (acc ++ [Fact.mk mid d pe.2.get_star_ts p])

/-- Middle loop of `extract_star_set` (line 39): iterate the parts of one
`(day_str, parts)` entry. -/
def day_step (mid : String) (acc : List Fact)
    (de : String × List (String × RawPartInfo)) : Except String (List Fact) :=
  de.2.foldlM (part_step mid de.1) acc

/-- Outer loop of `extract_star_set` (line 37): iterate one member's
completion structure, an absent `completion_day_level` being empty. -/
def member_step (acc : List Fact) (me : String × RawMember) :
    Except String (List Fact) :=
  (me.2.completion_day_level.getD []).foldlM (day_step me.1) acc

/-- The sequence of star facts produced by `extract_star_set` (bot.py
lines 34-42), in iteration order.  The Python function accumulates them
into a set; `extract_star_list` keeps the underlying sequence so that set
enumerations stay explicit, and `extract_star_set` below takes the set. -/
def extract_star_list (lb : RawLeaderboard) : Except String (List Fact) :=
  (lb.members.getD []).foldlM member_step []

/-- `extract_star_set` (bot.py lines 34-42): the set of star facts of a
payload. -/
def extract_star_set (lb : RawLeaderboard) : Except String (Finset Fact) :=
  match extract_star_list lb with
  | .error e => .error e
  | .ok l => .ok l.toFinset

/-- The list comprehension of `load_previous_star_set` (bot.py line 59):
`(str(m), int(d), t, int(p))` for each serialized row.  Our serialized
rows are already typed (`save_star_set` writes the tuple components
unchanged and JSON round-trips strings, integers and null verbatim), so
`str` and `int` are the identity on them; a missing state file yields the
empty list (lines 55-56). -/
def load_list (fileContent : Option (List Fact)) : List Fact :=
  match fileContent with
  | none => []
  | some raw => raw.map (fun r => Fact.mk r.memberId r.day r.ts r.part)

/-- `load_previous_star_set` (bot.py lines 54-59): the persisted snapshot
as a set, empty when no state file exists. -/
def load_previous_star_set (fileContent : Option (List Fact)) : Finset Fact :=
  (load_list fileContent).toFinset

/-- The diff of bot.py line 88: `new_stars = current - previous`, Python
set difference. -/
def diff (previous current : Finset Fact) : Finset Fact := current \ previous

/-- Python `<` between two raw `get_star_ts` values (the sort keys `x[2]`
of bot.py line 98, and the third tuple components compared by
`sorted(star_set)` in `save_star_set`): numbers compare numerically,
strings lexicographically, and every other pairing — including `None` on
either side — raises `TypeError`. -/
def pyLtKey : Option JVal → Option JVal → Except String Bool
  | some (.num a), some (.num b) => .ok (decide (a < b))
  | some (.str a), some (.str b) => .ok (decide (a < b))
  | _, _ => .error "TypeError: unsupported comparison"

/-- Python `<` between two star tuples, as evaluated by
`sorted(star_set)` in `save_star_set` (bot.py line 63).  Tuple comparison
skips components that compare equal with `==` and applies `<` to the
first differing component; `None` or mixed-type timestamps there raise
`TypeError`. -/
def pyLtFact (a b : Fact) : Except String Bool :=
  if a.memberId = b.memberId then
    if a.day = b.day then
      if a.ts = b.ts then .ok (decide (a.part < b.part))
      else pyLtKey a.ts b.ts
    else .ok (decide (a.day < b.day))
  else .ok (decide (a.memberId < b.memberId))

/-- Insert one element into an already sorted list, comparing with the
fallible Python `<` test; an element is placed before the first strictly
greater one.  A raised comparison aborts the sort, like `sorted` in
Python. -/
def insertE (lt : Fact → Fact → Except String Bool) (x : Fact) :
    List Fact → Except String (List Fact)
  | [] => .ok [x]
  | y :: ys =>
    match lt x y with
    | .error e => .error e
    | .ok true => .ok (x :: y :: ys)
    | .ok false =>
      match insertE lt x ys with
      | .error e => .error e
      | .ok r => .ok (y :: r)

/-- Fallible insertion sort: the embedding of Python `sorted`, which
either returns a permutation of its input ordered by the given `<` test
or raises the first comparison error.  (CPython uses a different sorting
algorithm, but for every property proved below — success and sortedness
when all needed comparisons succeed, failure when two elements with
incomparable keys must be ordered — the algorithms agree.) -/
def sortE (lt : Fact → Fact → Except String Bool) :
    List Fact → Except String (List Fact)
  | [] => .ok []
  | x :: xs =>
    match sortE lt xs with
    | .error e => .error e
    | .ok s => insertE lt x s

/-- `sorted(new_stars, key=lambda x: x[2])` of bot.py line 98: sort the
new facts by their raw timestamp component only. -/
def pySortByTs (l : List Fact) : Except String (List Fact) :=
  sortE (fun a b => pyLtKey a.ts b.ts) l

/-- `sorted(star_set)` of bot.py line 63: sort facts as Python tuples. -/
def pySortFacts (l : List Fact) : Except String (List Fact) :=
  sortE pyLtFact l

/-- `save_star_set` (bot.py lines 62-65): serialize the snapshot as the
sorted list of its fact tuples (the components are written unchanged, and
`json.dump` round-trips them verbatim).  The argument is an enumeration
of the Python set being saved. -/
def save_star_set (l : List Fact) : Except String (List Fact) :=
  pySortFacts l

/-- `member_name` (bot.py lines 45-49): the display name of a member,
falling back to an anonymous label keyed by the numeric id when `name` is
missing (Python `if not name` is also true for an empty string). -/
def member_name (m : RawMember) : String :=
  let name := m.name.getD ""
  if name = "" then "Anonymous #" ++ toString m.id else name

/-- The `member_by_id` dict of bot.py line 94:
`{str(m["id"]): m for m in members.values()}`, looked up at one key.  For
duplicate keys a Python dict comprehension keeps the last member, hence
the reversed search. -/
def member_by_id (lb : RawLeaderboard) (mid : String) : Option RawMember :=
  (((lb.members.getD []).map Prod.snd).reverse).find? (fun m => toString m.id = mid)

/-- Result of the external `requests.post` call to the Slack webhook: a
2xx response, a non-2xx response with status and body, or a raised
exception. -/
inductive DeliveryOutcome where
  | success
  | httpError (code : Nat) (body : String)
  | exn (msg : String)
deriving DecidableEq

/-- `slack_post` (bot.py lines 70-77): the delivery outcome is only ever
logged — the bare `except` swallows every exception and a non-2xx
response only prints — so the function is total and returns the log lines
it emits. -/
def slack_post (outcome : DeliveryOutcome) : List String :=
  match outcome with
  | .success => []
  | .httpError code body => ["Slack webhook error: " ++ toString code ++ " " ++ body]
  | .exn msg => ["Slack webhook exception: " ++ msg]

/-- `datetime.fromtimestamp(ts, tzinfo)` at bot.py line 102 requires a
number; on `None` (or a string) it raises `TypeError`. -/
def tsNumE (t : Option JVal) : Except String Int :=
  match t with
  | some (.num n) => .ok n
  | _ => .error "TypeError: fromtimestamp requires a number"

/-- Display name used at bot.py lines 99-100. -/
def display_name (lb : RawLeaderboard) (mid : String) : String :=
  match member_by_id lb mid with
  | some m => member_name m
  | none => "Member " ++ mid

/-- The announcement line of bot.py lines 102-106 for one new star.  The
timezone rendering of the timestamp is an external concern; the message
carries the epoch seconds, which is all later properties inspect. -/
def announce_msg (lb : RawLeaderboard) (f : Fact) : Except String String :=
  match tsNumE f.ts with
  | .error e => .error e
  | .ok tsn =>
    .ok (display_name lb f.memberId ++ " solved Day " ++ toString f.day ++ " "
      ++ (if f.part = 1 then "Part 1" else "Part 2") ++ " ⭐ at " ++ toString tsn)

/-- Observable outcome of one change-detection cycle: the state file
content afterwards, the announcement messages posted, and the log lines
of the Slack helper. -/
structure CycleResult where
  file : Option (List Fact)
  announced : List String
  logs : List String
deriving DecidableEq

/-- `job_check_new_stars` (bot.py lines 82-111).  Inputs: the fetched
leaderboard, the state file content (`none` when the file is missing) and
the delivery outcome of each message.  The code computes
`new_stars = current - previous` and returns early when it is empty (the
emptiness test here is on the filtered enumeration, which is empty
exactly when the set difference is); otherwise it announces the new facts
sorted by raw timestamp and saves the current snapshot.  An exception
anywhere propagates as `.error` (on the Python side, messages already
posted before such an exception are lost with the cycle; no property
below depends on them). -/
def job_check_new_stars (lb : RawLeaderboard) (fc : Option (List Fact))
    (deliver : String → DeliveryOutcome) : Except String CycleResult :=
  match extract_star_list lb with
  | .error e => .error e
  | .ok curL =>
    let previousL := load_list fc
    let newL := curL.dedup.filter (fun f => decide (f ∉ previousL))
    if newL = [] then .ok ⟨fc, [], []⟩
    else
      match pySortByTs newL with
      | .error e => .error e
      | .ok sortedNew =>
        match sortedNew.mapM (announce_msg lb) with
        | .error e => .error e
        | .ok msgs =>
          let logs := msgs.foldl (fun acc m => acc ++ slack_post (deliver m)) []
          match save_star_set curL.dedup with
          | .error e => .error e
          | .ok saved => .ok ⟨some saved, msgs, logs⟩

/-- The first-run seeding of `main` (bot.py lines 148-153): when no state
file exists, fetch the leaderboard and save its star set — nothing is
posted (the return type has no announcements: the branch only writes the
file). -/
def main_init (lb : RawLeaderboard) (fc : Option (List Fact)) :
    Except String (Option (List Fact)) :=
  match fc with
  | some c => .ok (some c)
  | none =>
    match extract_star_list lb with
    | .error e => .error e
    | .ok curL =>
      match save_star_set curL.dedup with
      | .error e => .error e
      | .ok saved => .ok (some saved)

/-- One line of the daily summary table (bot.py line 140), minus the
fixed-width padding: rank, display name, star count and score. -/
structure SummaryRow where
  rank : Int
  name : String
  stars : Int
  score : Int
deriving DecidableEq

/-- The sort key of bot.py line 123: `m.get("local_score", 0)`. -/
def scoreOf (m : RawMember) : Int := m.local_score.getD 0

/-- Descending-score relation used by `members.sort(key=..., reverse=True)`:
`a` may come before `b` when its score is at least `b`'s. -/
def scoreGE (a b : RawMember) : Prop := scoreOf b ≤ scoreOf a

instance : DecidableRel scoreGE :=
  fun a b => inferInstanceAs (Decidable (scoreOf b ≤ scoreOf a))

instance : IsTotal RawMember scoreGE :=
  ⟨fun a b => le_total (scoreOf b) (scoreOf a)⟩

instance : IsTrans RawMember scoreGE :=
  ⟨fun _ _ _ h h2 => le_trans h2 h⟩

/-- `members.sort(key=lambda m: m.get("local_score", 0), reverse=True)`
(bot.py line 123): a stable sort by score descending. -/
def sortMembers (ms : List RawMember) : List RawMember :=
  ms.insertionSort scoreGE

/-- The ranking loop of bot.py lines 130-140: `idx` enumerates from 1,
`rank` is reset to `idx` whenever the score differs from the previous
row's score, so tied scores repeat the rank and the next distinct score
jumps to the running index. -/
def summary_go (idx rank : Int) (prev : Option Int) :
    List RawMember → List SummaryRow
  | [] => []
  | m :: rest =>
    let score := scoreOf m
    let rank' := if prev = some score then rank else idx
    ⟨rank', member_name m, m.stars.getD 0, score⟩ ::
      summary_go (idx + 1) rank' (some score) rest

/-- Python `max` over a sequence of numbers: raises `ValueError` on an
empty sequence (bot.py line 124 applies it to the name lengths). -/
def pyMaxNat : List Nat → Except String Nat
  | [] => .error "ValueError: max arg is an empty sequence"
  | x :: xs => .ok (xs.foldl max x)

/-- `job_daily_summary` (bot.py lines 114-145), December path, after the
fetch: sort the members by descending score, compute the maximum display
name length (raising on an empty member list), and build the table rows.
The header timestamp, fixed-width padding and the final `slack_post` are
rendering and delivery concerns external to the rows. -/
def job_daily_summary (lb : RawLeaderboard) : Except String (List SummaryRow) :=
  match pyMaxNat ((sortMembers ((lb.members.getD []).map Prod.snd)).map
      (fun m => (member_name m).length)) with
  | .error e => .error e
  | .ok _ => .ok (summary_go 1 0 none (sortMembers ((lb.members.getD []).map Prod.snd)))

/-- A member with no completion data, as used in ranking payloads. -/
def plainMember (i : Int) (nm : String) (score : Int) : RawMember :=
  ⟨i, some nm, none, some score, none⟩

/-- Payload whose member `A` earned day 1 part 1 with no recorded
timestamp and day 1 part 2 at epoch 5: normalization tolerates the
missing `get_star_ts`, but serialization must then sort a `None`
timestamp against a number. -/
def pMixed : RawLeaderboard :=
  ⟨some [("A", ⟨1, some "A", none, none,
    some [("1", [("1", ⟨none⟩), ("2", ⟨some (.num 5)⟩)])]⟩)]⟩

/-- The two facts normalized from `pMixed`. -/
def factMixed1 : Fact := ⟨"A", 1, none, 1⟩

def factMixed2 : Fact := ⟨"A", 1, some (.num 5), 2⟩

/-- Payload with one star whose `get_star_ts` is the JSON number 5. -/
def pTsNum : RawLeaderboard :=
  ⟨some [("7", ⟨7, some "X", none, none, some [("1", [("1", ⟨some (.num 5)⟩)])]⟩)]⟩

/-- The same payload except that `get_star_ts` is the JSON string "5". -/
def pTsStr : RawLeaderboard :=
  ⟨some [("7", ⟨7, some "X", none, none, some [("1", [("1", ⟨some (.str "5")⟩)])]⟩)]⟩

/-- A star of member 7, day 1, part 1, achieved at epoch 5. -/
def factA : Fact := ⟨"7", 1, some (.num 5), 1⟩

/-- The same (participant, milestone, tier) as `factA` with timestamp 6. -/
def factB : Fact := ⟨"7", 1, some (.num 6), 1⟩

/-- Payload re-fetched after the upstream timestamp of `factA`'s star
moved from 5 to 6: it normalizes to `{factB}`. -/
def pRefetched : RawLeaderboard :=
  ⟨some [("7", ⟨7, some "X", none, none, some [("1", [("1", ⟨some (.num 6)⟩)])]⟩)]⟩

/-- Payload with two stars both lacking `get_star_ts`. -/
def pNoTs : RawLeaderboard :=
  ⟨some [("A", ⟨1, some "A", none, none,
    some [("1", [("1", ⟨none⟩)]), ("2", [("1", ⟨none⟩)])]⟩)]⟩

/-- The two timestamp-less facts of `pNoTs`. -/
def factNoTs1 : Fact := ⟨"A", 1, none, 1⟩

def factNoTs2 : Fact := ⟨"A", 2, none, 1⟩

/-- Ranking payload: Z scores 10, X and Y score 50, listed unsorted. -/
def pRank : RawLeaderboard :=
  ⟨some [("3", plainMember 3 "Z" 10), ("1", plainMember 1 "X" 50),
    ("2", plainMember 2 "Y" 50)]⟩

/-- Payload whose `members` mapping is absent. -/
def pEmpty : RawLeaderboard := ⟨none⟩

/-- Forget the log component of a cycle outcome (used to state that
delivery outcomes influence nothing but the logs). -/
def stripLogs : Except String CycleResult → Except String (Option (List Fact) × List String)
  | .error e => .error e
  | .ok r => .ok (r.file, r.announced)

/-- A payload all of whose day and part keys parse as integers, so that
no `int(...)` call of `extract_star_set` raises; the day key is only
required to parse when its day has at least one part entry, matching the
evaluation order of the code. -/
def WellKeyed (lb : RawLeaderboard) : Prop :=
  ∀ me ∈ lb.members.getD [], ∀ de ∈ me.2.completion_day_level.getD [],
    ∀ pe ∈ de.2, (pyIntString de.1).isSome ∧ (pyIntString pe.1).isSome

/-- Spec-side characterization of normalization output, for comparison
with `extract_star_list`: a fact arising from one
`(participant, milestone, tier)` entry of the nested completion
structure, with the member key as participant id, the day and part keys
parsed as integers, and the raw `get_star_ts` value taken verbatim. -/
def FactFromEntry (mem : List (String × RawMember)) (f : Fact) : Prop :=
  ∃ me ∈ mem, ∃ de ∈ me.2.completion_day_level.getD [], ∃ pe ∈ de.2,
    f.memberId = me.1 ∧ pyIntString de.1 = some f.day ∧
    f.ts = pe.2.get_star_ts ∧ pyIntString pe.1 = some f.part

/-- Whether a fact's raw timestamp is a JSON number. -/
def tsIsNum (f : Fact) : Bool :=
  match f.ts with
  | some (.num _) => true
  | _ => false

/-- Numeric value of a fact's timestamp (0 when not a number; only used
under `tsIsNum`). -/
def tsVal (f : Fact) : Int :=
  match f.ts with
  | some (.num n) => n
  | _ => 0

/-- Chronological order on facts by numeric timestamp. -/
def leTs (a b : Fact) : Prop := tsVal a ≤ tsVal b

/-- Competition-style rank discipline over a row list, following the
spec: writing `idx` for the one-based position of the first row shown,
each next row repeats the previous row's rank when the scores tie and
otherwise jumps to the count of entries seen so far (its own one-based
position). -/
def RankRule : Int → List SummaryRow → Prop
  | _, [] => True
  | _, [_] => True
  | idx, r1 :: r2 :: rest =>
    (r2.rank = if r2.score = r1.score then r1.rank else idx + 1) ∧
      RankRule (idx + 1) (r2 :: rest)

example : extract_star_list pMixed = .ok [factMixed1, factMixed2] := rfl
example : extract_star_list pTsNum = .ok [factA] := rfl
example : extract_star_list pRefetched = .ok [factB] := rfl
example : save_star_set [factMixed1, factMixed2]
    = .error "TypeError: unsupported comparison" := rfl
example : job_check_new_stars pRefetched (some [factA]) (fun _ => .success)
    = .ok ⟨some [factB], ["X solved Day 1 Part 1 ⭐ at 6"], []⟩ := rfl
example : job_check_new_stars pNoTs (some []) (fun _ => .success)
    = .error "TypeError: unsupported comparison" := rfl
example : job_daily_summary pRank
    = .ok [⟨1, "X", 0, 50⟩, ⟨1, "Y", 0, 50⟩, ⟨3, "Z", 0, 10⟩] := rfl
example : job_daily_summary pEmpty
    = .error "ValueError: max arg is an empty sequence" := rfl
example : main_init pTsNum none = .ok (some [factA]) := rfl
example : job_check_new_stars pTsNum (some [factA]) (fun _ => .success)
    = .ok ⟨some [factA], [], []⟩ := rfl

example : pyIntString "12" = some 12 := rfl
example : pyIntString "x" = none := rfl
example : pyLtKey (some (.num 3)) (some (.num 5)) = .ok true := rfl
example : pyLtKey none (some (.num 5)) = .error "TypeError: unsupported comparison" := rfl
example : pySortFacts [Fact.mk "A" 1 none 1, Fact.mk "A" 1 (some (.num 5)) 2]
    = .error "TypeError: unsupported comparison" := rfl
example : pySortByTs [Fact.mk "A" 1 (some (.num 7)) 1, Fact.mk "B" 1 (some (.num 3)) 1]
    = .ok [Fact.mk "B" 1 (some (.num 3)) 1, Fact.mk "A" 1 (some (.num 7)) 1] := rfl

example : job_check_new_stars pRefetched (some [factA]) (fun _ => .exn "down")
    = .ok ⟨some [factB], ["X solved Day 1 Part 1 ⭐ at 6"],
        ["Slack webhook exception: down"]⟩ := rfl



lemma tsIsNum_exists {f : Fact} (h : tsIsNum f = true) :
    ∃ n, f.ts = some (.num n) := by
  unfold tsIsNum at h
  split at h
  · next n heq => exact ⟨n, heq⟩
  · exact absurd h (by simp)

lemma pyLtKey_num {a b : Int} :
    pyLtKey (some (.num a)) (some (.num b)) = .ok (decide (a < b)) := rfl

lemma pyLtKey_none_left (b : Option JVal) :
    pyLtKey none b = .error "TypeError: unsupported comparison" := by
  rcases b with _ | v
  · rfl
  · rcases v with n | s <;> rfl

lemma pyLtKey_none_right (a : Option JVal) :
    pyLtKey a none = .error "TypeError: unsupported comparison" := by
  rcases a with _ | v
  · rfl
  · rcases v with n | s <;> rfl

lemma insertE_perm (lt : Fact → Fact → Except String Bool) (x : Fact) :
    ∀ (l out : List Fact), insertE lt x l = .ok out → out.Perm (x :: l) := by
  intro l
  induction l with
  | nil =>
    intro out h
    simp only [insertE, Except.ok.injEq] at h
    subst h
    exact List.Perm.refl _
  | cons y ys ih =>
    intro out h
    simp only [insertE] at h
    rcases hlt : lt x y with e | b
    · rw [hlt] at h; exact absurd h (by simp)
    · rw [hlt] at h
      cases b with
      | true =>
        simp only [Except.ok.injEq] at h
        subst h
        exact List.Perm.refl _
      | false =>
        rcases hrec : insertE lt x ys with e | r
        · rw [hrec] at h; exact absurd h (by simp)
        · rw [hrec] at h
          simp only [Except.ok.injEq] at h
          subst h
          exact ((ih r hrec).cons y).trans (List.Perm.swap x y ys)

lemma sortE_perm (lt : Fact → Fact → Except String Bool) :
    ∀ (l out : List Fact), sortE lt l = .ok out → out.Perm l := by
  intro l
  induction l with
  | nil =>
    intro out h
    simp only [sortE, Except.ok.injEq] at h
    subst h
    exact List.Perm.refl _
  | cons x xs ih =>
    intro out h
    simp only [sortE] at h
    rcases hs : sortE lt xs with e | s
    · rw [hs] at h; exact absurd h (by simp)
    · rw [hs] at h
      exact (insertE_perm lt x s out h).trans ((ih s hs).cons x)

lemma insertE_ok_of_total (lt : Fact → Fact → Except String Bool) (x : Fact) :
    ∀ s : List Fact, (∀ b ∈ s, ∃ c, lt x b = .ok c) →
      ∃ out, insertE lt x s = .ok out := by
  intro s
  induction s with
  | nil => intro _; exact ⟨[x], rfl⟩
  | cons y ys ih =>
    intro htot
    obtain ⟨c, hc⟩ := htot y (by simp)
    cases c with
    | true => exact ⟨x :: y :: ys, by simp [insertE, hc]⟩
    | false =>
      obtain ⟨r, hr⟩ := ih (fun b hb => htot b (by simp [hb]))
      exact ⟨y :: r, by simp [insertE, hc, hr]⟩

lemma sortE_ok_of_total (lt : Fact → Fact → Except String Bool) :
    ∀ l : List Fact, (∀ a ∈ l, ∀ b ∈ l, ∃ c, lt a b = .ok c) →
      ∃ out, sortE lt l = .ok out ∧ out.Perm l := by
  intro l
  induction l with
  | nil => intro _; exact ⟨[], rfl, List.Perm.refl _⟩
  | cons x xs ih =>
    intro htot
    obtain ⟨s, hs, hperm⟩ := ih (fun a ha b hb => htot a (by simp [ha]) b (by simp [hb]))
    obtain ⟨out, hout⟩ := insertE_ok_of_total lt x s (fun b hb =>
      htot x (by simp) b (by simp [hperm.mem_iff.mp hb]))
    refine ⟨out, by simp [sortE, hs, hout], ?_⟩
    exact (insertE_perm lt x s out hout).trans (hperm.cons x)

lemma insertE_head (lt : Fact → Fact → Except String Bool) (x : Fact) :
    ∀ (s r : List Fact), insertE lt x s = .ok r →
      r.head? = some x ∨ r.head? = s.head? := by
  intro s r h
  cases s with
  | nil =>
    simp only [insertE, Except.ok.injEq] at h
    subst h
    exact Or.inl rfl
  | cons y ys =>
    simp only [insertE] at h
    rcases hlt : lt x y with e | b
    · rw [hlt] at h; exact absurd h (by simp)
    · rw [hlt] at h
      cases b with
      | true =>
        simp only [Except.ok.injEq] at h
        subst h
        exact Or.inl rfl
      | false =>
        rcases hrec : insertE lt x ys with e | r' <;> rw [hrec] at h
        · exact absurd h (by simp)
        · simp only [Except.ok.injEq] at h
          subst h
          exact Or.inr rfl

lemma insertE_ts_sorted :
    ∀ (s : List Fact), ∀ (out : List Fact) (x : Fact),
      (∀ f ∈ x :: s, tsIsNum f = true) → List.Chain' leTs s →
      insertE (fun a b => pyLtKey a.ts b.ts) x s = .ok out →
      List.Chain' leTs out := by
  intro s
  induction s with
  | nil =>
    intro out x _ _ h
    simp only [insertE, Except.ok.injEq] at h
    subst h
    simp
  | cons y ys ih =>
    intro out x hnum hs h
    obtain ⟨m, hm⟩ := tsIsNum_exists (hnum x (by simp))
    obtain ⟨n, hn⟩ := tsIsNum_exists (hnum y (by simp))
    have hxy : pyLtKey x.ts y.ts = .ok (decide (tsVal x < tsVal y)) := by
      rw [hm, hn, pyLtKey_num]
      simp [tsVal, hm, hn]
    simp only [insertE, hxy] at h
    by_cases hv : tsVal x < tsVal y
    · rw [decide_eq_true hv] at h
      simp only [Except.ok.injEq] at h
      subst h
      exact List.chain'_cons.mpr ⟨le_of_lt hv, hs⟩
    · rw [decide_eq_false hv] at h
      rcases hrec : insertE (fun a b => pyLtKey a.ts b.ts) x ys with e | r
      · rw [hrec] at h; exact absurd h (by simp)
      · rw [hrec] at h
        simp only [Except.ok.injEq] at h
        subst h
        refine List.chain'_cons'.mpr ⟨?_, ?_⟩
        · intro z hz
          rcases insertE_head _ x ys r hrec with hh | hh
          · rw [hh] at hz
            cases hz
            exact not_lt.mp hv
          · rw [hh] at hz
            exact (List.chain'_cons'.mp hs).1 z hz
        · exact ih r x (fun f hf => by
            rcases List.mem_cons.mp hf with h1 | h1
            · exact hnum f (by simp [h1])
            · exact hnum f (by simp [List.mem_cons, Or.inr h1]))
            ((List.chain'_cons'.mp hs).2) hrec

lemma sortE_ts_sorted :
    ∀ (l out : List Fact), (∀ f ∈ l, tsIsNum f = true) →
      sortE (fun a b => pyLtKey a.ts b.ts) l = .ok out →
      List.Chain' leTs out := by
  intro l
  induction l with
  | nil =>
    intro out _ h
    simp only [sortE, Except.ok.injEq] at h
    subst h
    simp
  | cons x xs ih =>
    intro out hnum h
    simp only [sortE] at h
    rcases hs : sortE (fun a b => pyLtKey a.ts b.ts) xs with e | s
    · rw [hs] at h; exact absurd h (by simp)
    · rw [hs] at h
      have hperm := sortE_perm _ xs s hs
      refine insertE_ts_sorted s out x ?_ ?_ h
      · intro f hf
        rcases List.mem_cons.mp hf with h1 | h1
        · exact hnum f (by simp [h1])
        · exact hnum f (by simp [List.mem_cons, Or.inr (hperm.mem_iff.mp h1)])
      · exact ih s (fun f hf => hnum f (List.mem_cons.mpr (Or.inr hf))) hs

lemma sortE_singleton (lt : Fact → Fact → Except String Bool) (g : Fact) :
    sortE lt [g] = .ok [g] := rfl

lemma insertE_ts_none_left {x : Fact} (hx : x.ts = none) (z : Fact) (s : List Fact) :
    insertE (fun a b => pyLtKey a.ts b.ts) x (z :: s)
      = .error "TypeError: unsupported comparison" := by
  simp only [insertE, hx, pyLtKey_none_left]

/-- With at least two facts and at least one `None` timestamp, the
presentation sort of bot.py line 98 raises `TypeError`: Python cannot
order `None` against anything, including another `None`. -/
lemma pySortByTs_err :
    ∀ l : List Fact, 2 ≤ l.length → (∃ f ∈ l, f.ts = none) →
      ∃ e, pySortByTs l = .error e := by
  intro l
  induction l with
  | nil => intro h _; exact absurd h (by simp)
  | cons x xs ih =>
    intro hlen hex
    by_cases hxs : ∃ f ∈ xs, f.ts = none
    · by_cases hlen2 : 2 ≤ xs.length
      · obtain ⟨e, he⟩ := ih hlen2 hxs
        exact ⟨e, by simp only [pySortByTs, sortE] at he ⊢; rw [he]⟩
      · have h1 : xs.length = 1 := by
          simp only [List.length_cons] at hlen
          omega
        obtain ⟨g, hg⟩ := List.length_eq_one.mp h1
        subst hg
        obtain ⟨f, hf, hfts⟩ := hxs
        have hfg : f = g := by simpa using hf
        subst hfg
        refine ⟨"TypeError: unsupported comparison", ?_⟩
        simp only [pySortByTs, sortE, insertE, hfts, pyLtKey_none_right]
    · have hx : x.ts = none := by
        obtain ⟨f, hf, hfts⟩ := hex
        rcases List.mem_cons.mp hf with h1 | h1
        · rw [← h1]; exact hfts
        · exact absurd ⟨f, h1, hfts⟩ hxs
      rcases hs : sortE (fun a b => pyLtKey a.ts b.ts) xs with e | s
      · exact ⟨e, by simp only [pySortByTs, sortE]; rw [hs]⟩
      · have hperm := sortE_perm _ xs s hs
        have hslen : 1 ≤ s.length := by
          rw [hperm.length_eq]
          simp only [List.length_cons] at hlen
          omega
        cases s with
        | nil => exact absurd hslen (by simp)
        | cons z s' =>
          refine ⟨"TypeError: unsupported comparison", ?_⟩
          simp only [pySortByTs, sortE]
          rw [hs]
          exact insertE_ts_none_left hx z s'



lemma pyLtFact_ok_of_num {a b : Fact} (ha : tsIsNum a = true) (hb : tsIsNum b = true) :
    ∃ c, pyLtFact a b = .ok c := by
  obtain ⟨m, hm⟩ := tsIsNum_exists ha
  obtain ⟨n, hn⟩ := tsIsNum_exists hb
  unfold pyLtFact
  split_ifs with h1 h2 h3
  · exact ⟨_, rfl⟩
  · rw [hm, hn, pyLtKey_num]
    exact ⟨_, rfl⟩
  · exact ⟨_, rfl⟩
  · exact ⟨_, rfl⟩

lemma pyLtKey_ok_of_num {a b : Fact} (ha : tsIsNum a = true) (hb : tsIsNum b = true) :
    ∃ c, pyLtKey a.ts b.ts = .ok c := by
  obtain ⟨m, hm⟩ := tsIsNum_exists ha
  obtain ⟨n, hn⟩ := tsIsNum_exists hb
  rw [hm, hn, pyLtKey_num]
  exact ⟨_, rfl⟩

/-- The coercions of `load_previous_star_set` line 59 are the identity on
rows written by `save_star_set`: `str` of a string and `int` of an
integer are identities, and the timestamp is passed through verbatim. -/
lemma load_list_some (l : List Fact) : load_list (some l) = l := by
  have hfun : (fun r : Fact => Fact.mk r.memberId r.day r.ts r.part) = id := rfl
  simp only [load_list, hfun, List.map_id]

/-- `save_star_set` succeeds on any enumeration of a snapshot whose
timestamps are all numbers, returning a permutation of it. -/
lemma save_ok_of_num (l : List Fact) (h : ∀ f ∈ l, tsIsNum f = true) :
    ∃ out, save_star_set l = .ok out ∧ out.Perm l := by
  unfold save_star_set pySortFacts
  exact sortE_ok_of_total pyLtFact l (fun a ha b hb => pyLtFact_ok_of_num (h a ha) (h b hb))

/-- The filtered enumeration computed by `job_check_new_stars` is empty
exactly when every current fact was already persisted, i.e. when the set
difference of bot.py line 88 is empty. -/
lemma newL_eq_nil_iff (curL P : List Fact) :
    curL.dedup.filter (fun f => decide (f ∉ P)) = [] ↔ ∀ f ∈ curL, f ∈ P := by
  rw [List.filter_eq_nil_iff]
  constructor
  · intro h f hf
    by_contra hnot
    exact h f (List.mem_dedup.mpr hf) (by simpa using hnot)
  · intro h f hf
    simp [h f (List.mem_dedup.mp hf)]

lemma summary_go_map_score :
    ∀ (ms : List RawMember) (idx rank : Int) (prev : Option Int),
      (summary_go idx rank prev ms).map SummaryRow.score = ms.map scoreOf := by
  intro ms
  induction ms with
  | nil => intro idx rank prev; rfl
  | cons m rest ih => intro idx rank prev; simp [summary_go, ih]


lemma summary_go_rankRule :
    ∀ (ms : List RawMember) (idx rank : Int) (prev : Option Int),
      RankRule idx (summary_go idx rank prev ms) := by
  intro ms
  induction ms with
  | nil => intro idx rank prev; trivial
  | cons m rest ih =>
    intro idx rank prev
    cases rest with
    | nil => trivial
    | cons m2 rest2 =>
      have htail := ih (idx + 1) (if prev = some (scoreOf m) then rank else idx)
        (some (scoreOf m))
      constructor
      · by_cases he : scoreOf m2 = scoreOf m
        · simp [summary_go, he]
        · simp [summary_go, he, Ne.symm he]
      · exact htail

lemma summary_go_head_rank (m : RawMember) (rest : List RawMember)
    (idx rank : Int) (prev : Option Int) (r0 : SummaryRow)
    (h : (summary_go idx rank prev (m :: rest)).head? = some r0) :
    r0.rank = if prev = some (scoreOf m) then rank else idx := by
  simp only [summary_go, List.head?] at h
  cases h
  rfl

lemma parts_fold_spec (mid dayStr : String) :
    ∀ (parts : List (String × RawPartInfo)) (acc : List Fact),
      (∀ pe ∈ parts, (pyIntString dayStr).isSome ∧ (pyIntString pe.1).isSome) →
      ∃ out, parts.foldlM (part_step mid dayStr) acc = .ok out ∧
        ∀ f, (f ∈ out ↔ f ∈ acc ∨ ∃ pe ∈ parts, f.memberId = mid ∧
          pyIntString dayStr = some f.day ∧ f.ts = pe.2.get_star_ts ∧
          pyIntString pe.1 = some f.part) := by
  intro parts
  induction parts with
  | nil =>
    intro acc _
    exact ⟨acc, rfl, by simp⟩
  | cons pe rest ih =>
    intro acc h
    obtain ⟨hday, hpart⟩ := h pe (by simp)
    obtain ⟨d, hd⟩ := Option.isSome_iff_exists.mp hday
    obtain ⟨p, hp⟩ := Option.isSome_iff_exists.mp hpart
    have hstep : part_step mid dayStr acc pe
        = .ok (acc ++ [Fact.mk mid d pe.2.get_star_ts p]) := by
      simp [part_step, hd, hp]
    obtain ⟨out, hout, hmem⟩ :=
      ih (acc ++ [Fact.mk mid d pe.2.get_star_ts p]) (fun q hq => h q (by simp [hq]))
    refine ⟨out, ?_, ?_⟩
    · rw [List.foldlM_cons, hstep]
      simpa using hout
    · intro f
      rw [hmem f]
      constructor
      · rintro (hf | hf)
        · rcases List.mem_append.mp hf with h1 | h1
          · exact Or.inl h1
          · simp only [List.mem_singleton] at h1
            subst h1
            exact Or.inr ⟨pe, by simp, rfl, hd, rfl, hp⟩
        · obtain ⟨q, hq, hrest⟩ := hf
          exact Or.inr ⟨q, by simp [hq], hrest⟩
      · rintro (hf | hf)
        · exact Or.inl (List.mem_append.mpr (Or.inl hf))
        · obtain ⟨q, hq, h1, h2, h3, h4⟩ := hf
          rcases List.mem_cons.mp hq with hq1 | hq1
          · subst hq1
            left
            refine List.mem_append.mpr (Or.inr ?_)
            have hfd : f.day = d := by
              rw [hd] at h2
              exact (Option.some.injEq _ _ ▸ h2).symm
            have hfp : f.part = p := by
              rw [hp] at h4
              exact (Option.some.injEq _ _ ▸ h4).symm
            have : f = Fact.mk mid d q.2.get_star_ts p := by
              cases f
              simp_all
            simp [this]
          · exact Or.inr ⟨q, hq1, h1, h2, h3, h4⟩

lemma days_fold_spec (mid : String) :
    ∀ (days : List (String × List (String × RawPartInfo))) (acc : List Fact),
      (∀ de ∈ days, ∀ pe ∈ de.2, (pyIntString de.1).isSome ∧ (pyIntString pe.1).isSome) →
      ∃ out, days.foldlM (day_step mid) acc = .ok out ∧
        ∀ f, (f ∈ out ↔ f ∈ acc ∨ ∃ de ∈ days, ∃ pe ∈ de.2, f.memberId = mid ∧
          pyIntString de.1 = some f.day ∧ f.ts = pe.2.get_star_ts ∧
          pyIntString pe.1 = some f.part) := by
  intro days
  induction days with
  | nil =>
    intro acc _
    exact ⟨acc, rfl, by simp⟩
  | cons de rest ih =>
    intro acc h
    obtain ⟨mid1, hmid1, hmem1⟩ :=
      parts_fold_spec mid de.1 de.2 acc (fun pe hpe => h de (by simp) pe hpe)
    obtain ⟨out, hout, hmem⟩ := ih mid1 (fun q hq pe hpe => h q (by simp [hq]) pe hpe)
    refine ⟨out, ?_, ?_⟩
    · rw [List.foldlM_cons]
      have hds : day_step mid acc de = .ok mid1 := hmid1
      rw [hds]
      simpa using hout
    · intro f
      rw [hmem f]
      constructor
      · rintro (hf | hf)
        · rcases (hmem1 f).mp hf with h1 | h1
          · exact Or.inl h1
          · obtain ⟨pe, hpe, hrest⟩ := h1
            exact Or.inr ⟨de, by simp, pe, hpe, hrest⟩
        · obtain ⟨q, hq, hrest⟩ := hf
          exact Or.inr ⟨q, by simp [hq], hrest⟩
      · rintro (hf | hf)
        · exact Or.inl ((hmem1 f).mpr (Or.inl hf))
        · obtain ⟨q, hq, pe, hpe, hrest⟩ := hf
          rcases List.mem_cons.mp hq with hq1 | hq1
          · subst hq1
            exact Or.inl ((hmem1 f).mpr (Or.inr ⟨pe, hpe, hrest⟩))
          · exact Or.inr ⟨q, hq1, pe, hpe, hrest⟩

lemma members_fold_spec :
    ∀ (mem : List (String × RawMember)) (acc : List Fact),
      (∀ me ∈ mem, ∀ de ∈ me.2.completion_day_level.getD [],
        ∀ pe ∈ de.2, (pyIntString de.1).isSome ∧ (pyIntString pe.1).isSome) →
      ∃ out, mem.foldlM member_step acc = .ok out ∧
        ∀ f, (f ∈ out ↔ f ∈ acc ∨ FactFromEntry mem f) := by
  intro mem
  induction mem with
  | nil =>
    intro acc _
    exact ⟨acc, rfl, by simp [FactFromEntry]⟩
  | cons me rest ih =>
    intro acc h
    obtain ⟨mid1, hmid1, hmem1⟩ :=
      days_fold_spec me.1 (me.2.completion_day_level.getD []) acc
        (fun de hde pe hpe => h me (by simp) de hde pe hpe)
    obtain ⟨out, hout, hmem⟩ := ih mid1 (fun q hq de hde pe hpe => h q (by simp [hq]) de hde pe hpe)
    refine ⟨out, ?_, ?_⟩
    · rw [List.foldlM_cons]
      have hms : member_step acc me = .ok mid1 := hmid1
      rw [hms]
      simpa using hout
    · intro f
      rw [hmem f]
      unfold FactFromEntry
      constructor
      · rintro (hf | hf)
        · rcases (hmem1 f).mp hf with h1 | h1
          · exact Or.inl h1
          · obtain ⟨de, hde, pe, hpe, h1, h2, h3, h4⟩ := h1
            exact Or.inr ⟨me, by simp, de, hde, pe, hpe, h1, h2, h3, h4⟩
        · obtain ⟨q, hq, hrest⟩ := hf
          exact Or.inr ⟨q, by simp [hq], hrest⟩
      · rintro (hf | hf)
        · exact Or.inl ((hmem1 f).mpr (Or.inl hf))
        · obtain ⟨q, hq, de, hde, pe, hpe, hrest⟩ := hf
          rcases List.mem_cons.mp hq with hq1 | hq1
          · subst hq1
            exact Or.inl ((hmem1 f).mpr (Or.inr ⟨de, hde, pe, hpe, hrest⟩))
          · exact Or.inr ⟨q, hq1, de, hde, pe, hpe, hrest⟩


/-- C1: the Diff Engine of bot.py line 88 returns exactly the set
difference `current - previous` — a fact is in the result iff it is in
`current` and not in `previous` — and in particular `diff S S = ∅` for
every snapshot `S`. -/
theorem claim_C1_diff_is_set_difference :
    ∀ prev cur : Finset Fact,
      (∀ f, f ∈ diff prev cur ↔ (f ∈ cur ∧ f ∉ prev)) ∧ diff prev prev = ∅ := by
  intro prev cur
  constructor
  · intro f
    simp [diff, Finset.mem_sdiff]
  · simp [diff]

/-- C2 counterexample: `factA` and `factB` agree on the
`(participant_id, milestone_index, tier)` triple and differ only in
`achieved_at`, yet the code treats them as distinct facts: the diff of
the two snapshots is nonempty, and a full cycle re-announces the star and
overwrites the persisted timestamp — so the timestamp does participate in
identity and the first-seen timestamp is not authoritative. -/
theorem claim_C2_counterexample :
    (factA.memberId = factB.memberId ∧ factA.day = factB.day ∧
      factA.part = factB.part) ∧
    factA ≠ factB ∧
    diff {factA} {factB} = {factB} ∧
    job_check_new_stars pRefetched (some [factA]) (fun _ => .success)
      = .ok ⟨some [factB], ["X solved Day 1 Part 1 ⭐ at 6"], []⟩ := by
  refine ⟨⟨rfl, rfl, rfl⟩, by decide, by decide, rfl⟩

/-- C2 amended: two Facts are the same iff all four tuple components —
including `achieved_at` — are equal, and a re-fetched fact whose
timestamp changed upstream is treated as new by the diff. -/
theorem claim_C2_amended_full_tuple_identity :
    (∀ f g : Fact, f = g ↔ (f.memberId = g.memberId ∧ f.day = g.day ∧
      f.ts = g.ts ∧ f.part = g.part)) ∧
    (∀ f g : Fact, f.memberId = g.memberId → f.day = g.day → f.part = g.part →
      f.ts ≠ g.ts → g ∈ diff {f} {g}) := by
  constructor
  · intro f g
    constructor
    · intro h
      subst h
      exact ⟨rfl, rfl, rfl, rfl⟩
    · rintro ⟨h1, h2, h3, h4⟩
      cases f
      cases g
      simp_all
  · intro f g _ _ _ hts
    refine Finset.mem_sdiff.mpr ⟨Finset.mem_singleton_self g, fun hmem => ?_⟩
    exact hts (by rw [Finset.mem_singleton.mp hmem])

theorem claim_C2_amended_witness : factB ∈ diff {factA} {factB} :=
  claim_C2_amended_full_tuple_identity.2 factA factB rfl rfl rfl (by decide)

/-- C3 counterexample: the snapshot normalized from `pMixed` — reachable
because normalization tolerates a missing `get_star_ts` — makes
`save_star_set` raise `TypeError` while sorting (`None` against an
integer inside tuple comparison), so `load(save(S)) == S` fails for it:
there is nothing to load. -/
theorem claim_C3_counterexample :
    extract_star_list pMixed = .ok [factMixed1, factMixed2] ∧
    save_star_set [factMixed1, factMixed2]
      = .error "TypeError: unsupported comparison" :=
  ⟨rfl, rfl⟩

/-- C3 amended: for every snapshot all of whose facts carry a numeric
`achieved_at` (as every real leaderboard payload does), saving succeeds
and loading the saved rows returns a snapshot set-equal to it, whatever
enumeration order the facts were serialized from. -/
theorem claim_C3_amended_roundtrip :
    ∀ l : List Fact, (∀ f ∈ l, tsIsNum f = true) →
      ∃ out, save_star_set l = .ok out ∧
        load_previous_star_set (some out) = l.toFinset := by
  intro l h
  obtain ⟨out, hout, hperm⟩ := save_ok_of_num l h
  refine ⟨out, hout, ?_⟩
  unfold load_previous_star_set
  rw [load_list_some]
  exact List.toFinset_eq_of_perm out l hperm

theorem claim_C3_amended_witness :
    ∃ out, save_star_set [factB, factA] = .ok out ∧
      load_previous_star_set (some out) = [factB, factA].toFinset :=
  claim_C3_amended_roundtrip [factB, factA] (by decide)

/-- C4: when no state file exists, `main` seeds the store with the full
current snapshot without announcing anything (`main_init` only writes the
file), and the next change-detection cycle against the unchanged remote
snapshot is a no-op: empty diff, no announcements, file untouched. -/
theorem claim_C4_first_run_seeding :
    ∀ (lb : RawLeaderboard) (file : Option (List Fact))
      (deliver : String → DeliveryOutcome),
      main_init lb none = .ok file →
      job_check_new_stars lb file deliver = .ok ⟨file, [], []⟩ := by
  intro lb file deliver h
  unfold main_init at h
  rcases hext : extract_star_list lb with e | curL
  · rw [hext] at h
    simp at h
  · rw [hext] at h
    dsimp only at h
    rcases hsave : save_star_set curL.dedup with e | saved
    · rw [hsave] at h
      simp at h
    · rw [hsave] at h
      dsimp only at h
      simp only [Except.ok.injEq] at h
      subst h
      have hperm : saved.Perm curL.dedup := sortE_perm pyLtFact curL.dedup saved hsave
      have hnil : curL.dedup.filter (fun f => decide (f ∉ load_list (some saved))) = [] := by
        rw [load_list_some]
        exact (newL_eq_nil_iff curL saved).mpr
          (fun f hf => hperm.mem_iff.mpr (List.mem_dedup.mpr hf))
      unfold job_check_new_stars
      rw [hext]
      dsimp only
      rw [if_pos hnil]

theorem claim_C4_witness :
    job_check_new_stars pTsNum (some [factA]) (fun _ => .success)
      = .ok ⟨some [factA], [], []⟩ :=
  claim_C4_first_run_seeding pTsNum (some [factA]) (fun _ => .success) rfl

/-- C5: Slack delivery outcomes influence nothing but the log lines —
success or failure of the cycle, the announcements computed, and the file
finally saved are all identical under any delivery outcomes (so a
delivery failure never raises out of the cycle); failing outcomes are
logged; and whenever a cycle with a nonempty diff succeeds, the file it
leaves behind is exactly the saved current snapshot, for any delivery
outcomes including failing ones. -/
theorem claim_C5_delivery_failure_harmless :
    (∀ (lb : RawLeaderboard) (fc : Option (List Fact))
      (d1 d2 : String → DeliveryOutcome),
      stripLogs (job_check_new_stars lb fc d1)
        = stripLogs (job_check_new_stars lb fc d2)) ∧
    (∀ (code : Nat) (body msg : String),
      slack_post (.httpError code body) ≠ [] ∧ slack_post (.exn msg) ≠ []) ∧
    (∀ (lb : RawLeaderboard) (fc : Option (List Fact))
      (d : String → DeliveryOutcome) (r : CycleResult) (curL : List Fact),
      extract_star_list lb = .ok curL →
      job_check_new_stars lb fc d = .ok r →
      curL.dedup.filter (fun f => decide (f ∉ load_list fc)) ≠ [] →
      ∃ saved, save_star_set curL.dedup = .ok saved ∧ r.file = some saved) := by
  refine ⟨?_, ?_, ?_⟩
  · intro lb fc d1 d2
    unfold job_check_new_stars
    rcases hext : extract_star_list lb with e | curL
    · rfl
    · dsimp only
      by_cases hnil : curL.dedup.filter (fun f => decide (f ∉ load_list fc)) = []
      · rw [if_pos hnil, if_pos hnil]
      · rw [if_neg hnil, if_neg hnil]
        rcases hsort : pySortByTs (curL.dedup.filter (fun f => decide (f ∉ load_list fc)))
          with e | sortedNew
        · rfl
        · dsimp only
          rcases hmap : sortedNew.mapM (announce_msg lb) with e | msgs
          · rfl
          · dsimp only
            rcases hsave : save_star_set curL.dedup with e | saved
            · rfl
            · rfl
  · intro code body msg
    exact ⟨by simp [slack_post], by simp [slack_post]⟩
  · intro lb fc d r curL hext hjob hne
    unfold job_check_new_stars at hjob
    rw [hext] at hjob
    dsimp only at hjob
    rw [if_neg hne] at hjob
    rcases hsort : pySortByTs (curL.dedup.filter (fun f => decide (f ∉ load_list fc)))
      with e | sortedNew <;> rw [hsort] at hjob
    · simp at hjob
    · dsimp only at hjob
      rcases hmap : sortedNew.mapM (announce_msg lb) with e | msgs <;> rw [hmap] at hjob
      · simp at hjob
      · dsimp only at hjob
        rcases hsave : save_star_set curL.dedup with e | saved <;> rw [hsave] at hjob
        · simp at hjob
        · dsimp only at hjob
          simp only [Except.ok.injEq] at hjob
          exact ⟨saved, rfl, by rw [← hjob]⟩

theorem claim_C5_witness :
    ∃ saved, save_star_set ([factB].dedup) = .ok saved ∧
      (CycleResult.mk (some [factB]) ["X solved Day 1 Part 1 ⭐ at 6"]
        ["Slack webhook exception: down"]).file = some saved :=
  claim_C5_delivery_failure_harmless.2.2 pRefetched (some [factA])
    (fun _ => .exn "down")
    ⟨some [factB], ["X solved Day 1 Part 1 ⭐ at 6"], ["Slack webhook exception: down"]⟩
    [factB] rfl rfl (by decide)

/-- C6 counterexample: normalization does not coerce the timestamp field.
Two payloads identical but for the native type of `get_star_ts` (the JSON
number 5 versus the JSON string "5") normalize to different facts — the
value is carried verbatim, so fact equality is not stable in the
timestamp's native type, while participant, milestone and tier are
coerced as claimed. -/
theorem claim_C6_counterexample :
    extract_star_list pTsNum = .ok [Fact.mk "7" 1 (some (.num 5)) 1] ∧
    extract_star_list pTsStr = .ok [Fact.mk "7" 1 (some (.str "5")) 1] ∧
    Fact.mk "7" 1 (some (.num 5)) 1 ≠ Fact.mk "7" 1 (some (.str "5")) 1 :=
  ⟨rfl, rfl, by decide⟩

/-- C6 amended: on every payload whose day and part keys parse as
integers, normalization succeeds, treats absent nested mappings as empty,
and produces exactly the facts of the `(participant, milestone, tier)`
entries of the nested completion structure — with the member key as the
(string) participant id, the day and part keys coerced by `int`, and the
raw `get_star_ts` value taken verbatim, without coercion. -/
theorem claim_C6_amended_normalization :
    ∀ lb : RawLeaderboard, WellKeyed lb →
      (lb.members = none → extract_star_list lb = .ok []) ∧
      ∃ L, extract_star_list lb = .ok L ∧
        ∀ f, (f ∈ L ↔ FactFromEntry (lb.members.getD []) f) := by
  intro lb h
  constructor
  · intro hm
    unfold extract_star_list
    rw [hm]
    rfl
  · obtain ⟨out, hout, hmem⟩ := members_fold_spec (lb.members.getD []) [] h
    refine ⟨out, hout, fun f => ?_⟩
    rw [hmem f]
    simp

theorem claim_C6_amended_witness :
    (pMixed.members = none → extract_star_list pMixed = .ok []) ∧
    ∃ L, extract_star_list pMixed = .ok L ∧
      ∀ f, (f ∈ L ↔ FactFromEntry (pMixed.members.getD []) f) :=
  claim_C6_amended_normalization pMixed (by unfold WellKeyed; decide)

/-- C7 counterexample: with two new facts lacking `achieved_at`, the
cycle does not fall back to any `(milestone, tier, participant)`
ordering — the presentation sort of bot.py line 98 compares the `None`
keys and raises `TypeError`, aborting the cycle before anything is
presented to the formatter. -/
theorem claim_C7_counterexample :
    extract_star_list pNoTs = .ok [factNoTs1, factNoTs2] ∧
    pySortByTs [factNoTs1, factNoTs2] = .error "TypeError: unsupported comparison" ∧
    job_check_new_stars pNoTs (some []) (fun _ => .success)
      = .error "TypeError: unsupported comparison" :=
  ⟨rfl, rfl, rfl⟩

/-- C7 amended: when every new fact carries a numeric `achieved_at`, the
facts are presented in ascending timestamp order (a sorted permutation of
the diff); when at least two facts are new and any lacks a timestamp, the
sort raises `TypeError` instead of using a fallback ordering. -/
theorem claim_C7_amended_presentation_order :
    (∀ l : List Fact, (∀ f ∈ l, tsIsNum f = true) →
      ∃ out, pySortByTs l = .ok out ∧ out.Perm l ∧ List.Chain' leTs out) ∧
    (∀ l : List Fact, 2 ≤ l.length → (∃ f ∈ l, f.ts = none) →
      ∃ e, pySortByTs l = .error e) := by
  constructor
  · intro l h
    obtain ⟨out, hout, hperm⟩ := sortE_ok_of_total (fun a b => pyLtKey a.ts b.ts) l
      (fun a ha b hb => pyLtKey_ok_of_num (h a ha) (h b hb))
    exact ⟨out, hout, hperm, sortE_ts_sorted l out h hout⟩
  · exact pySortByTs_err

theorem claim_C7_amended_witness :
    (∃ out, pySortByTs [factB, factA] = .ok out ∧ out.Perm [factB, factA] ∧
      List.Chain' leTs out) ∧
    (∃ e, pySortByTs [factNoTs1, factNoTs2] = .error e) :=
  ⟨claim_C7_amended_presentation_order.1 [factB, factA] (by decide),
   claim_C7_amended_presentation_order.2 [factNoTs1, factNoTs2] (by decide)
     ⟨factNoTs1, List.mem_cons_self _ _, rfl⟩⟩

/-- C8: when the current snapshot equals the persisted one, the cycle is
a no-op that completes normally: no announcement, no log line, and the
state file left exactly as it was. -/
theorem claim_C8_empty_diff_noop :
    ∀ (lb : RawLeaderboard) (fc : Option (List Fact))
      (deliver : String → DeliveryOutcome) (curL : List Fact),
      extract_star_list lb = .ok curL →
      curL.toFinset = load_previous_star_set fc →
      job_check_new_stars lb fc deliver = .ok ⟨fc, [], []⟩ := by
  intro lb fc deliver curL hext heq
  have hnil : curL.dedup.filter (fun f => decide (f ∉ load_list fc)) = [] := by
    refine (newL_eq_nil_iff curL (load_list fc)).mpr (fun f hf => ?_)
    have hmem : f ∈ curL.toFinset := List.mem_toFinset.mpr hf
    rw [heq] at hmem
    exact List.mem_toFinset.mp hmem
  unfold job_check_new_stars
  rw [hext]
  dsimp only
  rw [if_pos hnil]

theorem claim_C8_witness :
    job_check_new_stars pRefetched (some [factB]) (fun _ => .exn "down")
      = .ok ⟨some [factB], [], []⟩ :=
  claim_C8_empty_diff_noop pRefetched (some [factB]) (fun _ => .exn "down")
    [factB] rfl (by decide)

/-- C9: the daily summary sorts participants by score descending and
assigns competition-style ranks — adjacent rows never increase in score,
the first row has rank 1, ties repeat the rank and a distinct score jumps
to the count of entries so far — and on the spec scenario of scores
50, 50, 10 the ranks are 1, 1, 3. -/
theorem claim_C9_competition_ranking :
    (∀ (lb : RawLeaderboard) (rows : List SummaryRow),
      job_daily_summary lb = .ok rows →
        List.Chain' (fun r1 r2 => r2.score ≤ r1.score) rows ∧
        (∀ r0, rows.head? = some r0 → r0.rank = 1) ∧
        RankRule 1 rows) ∧
    job_daily_summary pRank
      = .ok [⟨1, "X", 0, 50⟩, ⟨1, "Y", 0, 50⟩, ⟨3, "Z", 0, 10⟩] := by
  constructor
  · intro lb rows h
    unfold job_daily_summary at h
    rcases hmax : pyMaxNat ((sortMembers ((lb.members.getD []).map Prod.snd)).map
        (fun m => (member_name m).length)) with e | v <;> rw [hmax] at h
    · simp at h
    · dsimp only at h
      simp only [Except.ok.injEq] at h
      subst h
      refine ⟨?_, ?_, summary_go_rankRule _ 1 0 none⟩
      · have hsorted : List.Sorted scoreGE
            (sortMembers ((lb.members.getD []).map Prod.snd)) :=
          List.sorted_insertionSort scoreGE _
        have hchain : List.Chain' scoreGE
            (sortMembers ((lb.members.getD []).map Prod.snd)) :=
          List.Pairwise.chain' hsorted
        have hmap := summary_go_map_score
          (sortMembers ((lb.members.getD []).map Prod.snd)) 1 0 none
        have h2 : List.Chain' (fun (a b : Int) => b ≤ a)
            ((summary_go 1 0 none
              (sortMembers ((lb.members.getD []).map Prod.snd))).map SummaryRow.score) := by
          rw [hmap, List.chain'_map]
          exact hchain
        exact (List.chain'_map SummaryRow.score).mp h2
      · intro r0 hr0
        cases hms : sortMembers ((lb.members.getD []).map Prod.snd) with
        | nil =>
          rw [hms] at hr0
          exact absurd hr0 (by simp [summary_go])
        | cons m rest =>
          rw [hms] at hr0
          have := summary_go_head_rank m rest 1 0 none r0 hr0
          simpa using this
  · rfl

theorem claim_C9_witness :
    List.Chain' (fun r1 r2 => r2.score ≤ r1.score)
        [(⟨1, "X", 0, 50⟩ : SummaryRow), ⟨1, "Y", 0, 50⟩, ⟨3, "Z", 0, 10⟩] ∧
    (∀ r0, ([(⟨1, "X", 0, 50⟩ : SummaryRow), ⟨1, "Y", 0, 50⟩,
        ⟨3, "Z", 0, 10⟩] : List SummaryRow).head? = some r0 → r0.rank = 1) ∧
    RankRule 1 [(⟨1, "X", 0, 50⟩ : SummaryRow), ⟨1, "Y", 0, 50⟩, ⟨3, "Z", 0, 10⟩] :=
  claim_C9_competition_ranking.1 pRank
    [⟨1, "X", 0, 50⟩, ⟨1, "Y", 0, 50⟩, ⟨3, "Z", 0, 10⟩] rfl

/-- C10: when the fetched leaderboard has no members, the daily summary
job raises (Python `max` of the empty sequence of name lengths) instead
of posting an empty table: the rendering is not total on the empty
participant list. -/
theorem claim_C10_empty_members_raises :
    ∀ lb : RawLeaderboard, lb.members.getD [] = [] →
      job_daily_summary lb = .error "ValueError: max arg is an empty sequence" := by
  intro lb h
  unfold job_daily_summary
  rw [h]
  rfl

theorem claim_C10_witness :
    job_daily_summary pEmpty = .error "ValueError: max arg is an empty sequence" :=
  claim_C10_empty_members_raises pEmpty rfl

end AocBot
